import Mathlib

/-!
Verification of the wolfSSL Rust wrapper (src/wrapper/rust/wolfssl/src/wolfcrypt/sha.rs
and cmac.rs) against its design specification.

The wrapper is a thin binding layer: each method computes u32 sizes from Rust
slice lengths, invokes one native wolfCrypt routine, and maps the returned
integer status into a typed Result.  The native routines themselves are opaque
external collaborators.  We embed each wrapper method as a Lean function whose
native call is an oracle parameter (a function yielding the status code, the
bytes the call leaves in the caller buffer, and the updated native state), so
the theorems hold for every possible native behaviour.  Where a claim depends
on the behaviour of the native routine itself (whose C implementation is not
under src/), the native routine is modelled from the specification and the
defining doc comment says so.

Machine-integer detail kept from the source: Rust `len as u32` on a 64-bit
target truncates, so every size the wrapper hands to the native layer is the
slice length reduced modulo 2 ^ 32.
-/

/-- The wolfCrypt length-mismatch error code `wolfCrypt_ErrorCodes_BUFFER_E`
(value -132 in the native headers, referenced by sha.rs as the error returned
on an output-buffer length mismatch). -/
def BUFFER_E : Int := -132

/-- Modulus of the Rust `as u32` cast: a usize length is truncated to its
value modulo 2 ^ 32 before being handed to the native layer. -/
def u32Mod : Nat := 2 ^ 32

/-- Body shared verbatim by `finalize` of all nine fixed-digest hash wrappers
in sha.rs (SHA, SHA224, SHA256, SHA384, SHA512, SHA3_224, SHA3_256, SHA3_384,
SHA3_512): first `if hash.len() != Self::DIGEST_SIZE { return Err(BUFFER_E) }`,
then the native final call, propagating a nonzero status verbatim.  The native
call is the oracle `native`, which given the native state and the buffer
returns the status, the buffer contents it leaves behind, and the new native
state.  The result records the value returned to the caller, whether the
native routine was invoked, the final buffer contents, and the final state. -/
def finalizeFixed (digestSize : Nat) (σ : Type) (st : σ) (hash : List Nat)
    (native : σ → List Nat → Int × List Nat × σ) :
    Except Int Unit × Bool × List Nat × σ :=
  if hash.length ≠ digestSize then
    (Except.error BUFFER_E, false, hash, st)
  else
    let r := native st hash
    if r.1 ≠ 0 then (Except.error r.1, true, r.2.1, r.2.2)
    else (Except.ok (), true, r.2.1, r.2.2)

/-- SHA-1 digest size in bytes (sha.rs, `WC_SHA_DIGEST_SIZE`). -/
def SHA.DIGEST_SIZE : Nat := 20

/-- SHA-224 digest size in bytes (sha.rs, `WC_SHA224_DIGEST_SIZE`). -/
def SHA224.DIGEST_SIZE : Nat := 28

/-- SHA-256 digest size in bytes (sha.rs, `WC_SHA256_DIGEST_SIZE`). -/
def SHA256.DIGEST_SIZE : Nat := 32

/-- SHA-384 digest size in bytes (sha.rs, `WC_SHA384_DIGEST_SIZE`). -/
def SHA384.DIGEST_SIZE : Nat := 48

/-- SHA-512 digest size in bytes (sha.rs, `WC_SHA512_DIGEST_SIZE`). -/
def SHA512.DIGEST_SIZE : Nat := 64

/-- SHA3-224 digest size in bytes (sha.rs, `WC_SHA3_224_DIGEST_SIZE`). -/
def SHA3_224.DIGEST_SIZE : Nat := 28

/-- SHA3-256 digest size in bytes (sha.rs, `WC_SHA3_256_DIGEST_SIZE`). -/
def SHA3_256.DIGEST_SIZE : Nat := 32

/-- SHA3-384 digest size in bytes (sha.rs, `WC_SHA3_384_DIGEST_SIZE`). -/
def SHA3_384.DIGEST_SIZE : Nat := 48

/-- SHA3-512 digest size in bytes (sha.rs, `WC_SHA3_512_DIGEST_SIZE`). -/
def SHA3_512.DIGEST_SIZE : Nat := 64

/-- `SHA::finalize` (sha.rs lines 141-152). -/
def SHA.finalize := finalizeFixed SHA.DIGEST_SIZE

/-- `SHA224::finalize` (sha.rs lines 276-287). -/
def SHA224.finalize := finalizeFixed SHA224.DIGEST_SIZE

/-- `SHA256::finalize` (sha.rs lines 411-422). -/
def SHA256.finalize := finalizeFixed SHA256.DIGEST_SIZE

/-- `SHA384::finalize` (sha.rs lines 546-557). -/
def SHA384.finalize := finalizeFixed SHA384.DIGEST_SIZE

/-- `SHA512::finalize` (sha.rs lines 681-692). -/
def SHA512.finalize := finalizeFixed SHA512.DIGEST_SIZE

/-- `SHA3_224::finalize` (sha.rs lines 816-827). -/
def SHA3_224.finalize := finalizeFixed SHA3_224.DIGEST_SIZE

/-- `SHA3_256::finalize` (sha.rs lines 951-962). -/
def SHA3_256.finalize := finalizeFixed SHA3_256.DIGEST_SIZE

/-- `SHA3_384::finalize` (sha.rs lines 1086-1097). -/
def SHA3_384.finalize := finalizeFixed SHA3_384.DIGEST_SIZE

/-- `SHA3_512::finalize` (sha.rs lines 1221-1232). -/
def SHA3_512.finalize := finalizeFixed SHA3_512.DIGEST_SIZE

/-- `CMAC::finalize` (cmac.rs lines 235-245).  Unlike the nine hash wrappers,
it performs no length check at all: it computes `dout_size = dout.len() as
u32` and invokes `wc_CmacFinalNoFree` unconditionally, propagating a nonzero
status verbatim.  The oracle `native` receives the state, the buffer and the
u32 size, and returns the status, the buffer contents it leaves behind, and
the new state.  The AES-CMAC tag size (the fixed digest size of CMAC) is 16
bytes. -/
def CMAC.finalize (σ : Type) (st : σ) (dout : List Nat)
    (native : σ → List Nat → Nat → Int × List Nat × σ) :
    Except Int Unit × Bool × List Nat × σ :=
  let dout_size := dout.length % u32Mod
  let r := native st dout dout_size
  if r.1 ≠ 0 then (Except.error r.1, true, r.2.1, r.2.2)
  else (Except.ok (), true, r.2.1, r.2.2)

/-- `SHA::new` (sha.rs lines 55-64) and, with the same body, every other
`new` in sha.rs: the native init call (the oracle outcome `r`, a status and
the initialized native state) with a nonzero status propagated verbatim. -/
def SHA.new (σ : Type) (r : Int × σ) : Except Int σ :=
  if r.1 ≠ 0 then Except.error r.1 else Except.ok r.2

/-- `SHA::init` (sha.rs lines 83-89) and, with the same body, every other
`init` in sha.rs: re-runs the native init on the existing state (oracle
outcome `r`), propagating a nonzero status verbatim. -/
def SHA.init (σ : Type) (st : σ) (native : σ → Int × σ) : Except Int σ :=
  let r := native st
  if r.1 ≠ 0 then Except.error r.1 else Except.ok r.2

/-- `SHA::update` (sha.rs lines 109-118) and, with the same body, every other
`update` in sha.rs and `CMAC::update` (cmac.rs lines 193-202): computes
`data_size = data.len() as u32`, invokes the native update (oracle `native`,
receiving state, buffer and u32 size), and propagates a nonzero status
verbatim. -/
def SHA.update (σ : Type) (st : σ) (data : List Nat)
    (native : σ → List Nat → Nat → Int × σ) : Except Int σ :=
  let data_size := data.length % u32Mod
  let r := native st data data_size
  if r.1 ≠ 0 then Except.error r.1 else Except.ok r.2

/-- `SHAKE128::absorb` (sha.rs lines 1384-1393) and `SHAKE256::absorb`
(sha.rs lines 1582-1591): same shape as `update`. -/
def SHAKE128.absorb (σ : Type) (st : σ) (data : List Nat)
    (native : σ → List Nat → Nat → Int × σ) : Except Int σ :=
  let data_size := data.length % u32Mod
  let r := native st data data_size
  if r.1 ≠ 0 then Except.error r.1 else Except.ok r.2

/-- `CMAC::new` (cmac.rs lines 105-119): computes `key_size = key.len() as
u32`, invokes `wc_InitCmac` (oracle `native` given the key bytes and the u32
size), and propagates a nonzero status verbatim; on status 0 the initialized
native state is returned as the handle. -/
def CMAC.new (σ : Type) (key : List Nat)
    (native : List Nat → Nat → Int × σ) : Except Int σ :=
  let key_size := key.length % u32Mod
  let r := native key key_size
  if r.1 ≠ 0 then Except.error r.1 else Except.ok r.2

/-- `CMAC::update` (cmac.rs lines 193-202): same body as `SHA::update`. -/
def CMAC.update (σ : Type) (st : σ) (data : List Nat)
    (native : σ → List Nat → Nat → Int × σ) : Except Int σ :=
  let data_size := data.length % u32Mod
  let r := native st data data_size
  if r.1 ≠ 0 then Except.error r.1 else Except.ok r.2

/-- `CMAC::generate` (cmac.rs lines 69-82): computes the three u32 sizes,
invokes `wc_AesCmacGenerate` (oracle `native`, receiving the output size and
the data and key buffers with their u32 sizes, returning the status and the
bytes written to the output buffer), and propagates a nonzero status
verbatim.  On status 0 the result carries the bytes the native call wrote. -/
def CMAC.generate (key data : List Nat) (doutLen : Nat)
    (native : Nat → List Nat → Nat → List Nat → Nat → Int × List Nat) :
    Except Int (List Nat) :=
  let key_size := key.length % u32Mod
  let data_size := data.length % u32Mod
  let dout_size := doutLen % u32Mod
  let r := native dout_size data data_size key key_size
  if r.1 ≠ 0 then Except.error r.1 else Except.ok r.2

/-- `CMAC::verify` (cmac.rs lines 152-165): computes the three u32 sizes and
invokes `wc_AesCmacVerify` (oracle `native`, receiving check, data and key
with their u32 sizes and returning the integer status).  A negative status is
propagated as an error; a non-negative status yields `Ok(rc == 0)`. -/
def CMAC.verify (key data check : List Nat)
    (native : List Nat → Nat → List Nat → Nat → List Nat → Nat → Int) :
    Except Int Bool :=
  let key_size := key.length % u32Mod
  let data_size := data.length % u32Mod
  let check_size := check.length % u32Mod
  let rc := native check check_size data data_size key key_size
  if rc < 0 then Except.error rc else Except.ok (decide (rc = 0))

/-- SHAKE128 squeeze block size in bytes (sha.rs, `WC_SHA3_128_BLOCK_SIZE`). -/
def SHAKE128.SQUEEZE_BLOCK_SIZE : Nat := 168

/-- SHAKE256 squeeze block size in bytes (sha.rs, `WC_SHA3_256_BLOCK_SIZE`). -/
def SHAKE256.SQUEEZE_BLOCK_SIZE : Nat := 136

/-- `SHAKE128::squeeze_blocks` (sha.rs lines 1417-1430): computes `dout_size
= dout.len() as u32`; if it is not a multiple of `SQUEEZE_BLOCK_SIZE` returns
`BUFFER_E` without invoking the native call; otherwise requests `dout_size /
SQUEEZE_BLOCK_SIZE` blocks from `wc_Shake128_SqueezeBlocks` (oracle `native`,
given the state and the block count) and propagates a nonzero status
verbatim.  The result records the returned value, whether the native routine
was invoked, and the number of blocks requested (0 when not invoked). -/
def SHAKE128.squeeze_blocks (σ : Type) (st : σ) (doutLen : Nat)
    (native : σ → Nat → Int × σ) : Except Int σ × Bool × Nat :=
  let dout_size := doutLen % u32Mod
  if dout_size % SHAKE128.SQUEEZE_BLOCK_SIZE ≠ 0 then
    (Except.error BUFFER_E, false, 0)
  else
    let n_blocks := dout_size / SHAKE128.SQUEEZE_BLOCK_SIZE
    let r := native st n_blocks
    if r.1 ≠ 0 then (Except.error r.1, true, n_blocks)
    else (Except.ok r.2, true, n_blocks)

/-- `SHAKE256::squeeze_blocks` (sha.rs lines 1615-1628): identical to the
SHAKE128 version with block size 136. -/
def SHAKE256.squeeze_blocks (σ : Type) (st : σ) (doutLen : Nat)
    (native : σ → Nat → Int × σ) : Except Int σ × Bool × Nat :=
  let dout_size := doutLen % u32Mod
  if dout_size % SHAKE256.SQUEEZE_BLOCK_SIZE ≠ 0 then
    (Except.error BUFFER_E, false, 0)
  else
    let n_blocks := dout_size / SHAKE256.SQUEEZE_BLOCK_SIZE
    let r := native st n_blocks
    if r.1 ≠ 0 then (Except.error r.1, true, n_blocks)
    else (Except.ok r.2, true, n_blocks)

/-- `SHAKE128::finalize` (sha.rs lines 1355-1364): computes `hash_size =
hash.len() as u32`, performs no length validation of its own, and invokes
`wc_Shake128_Final` (oracle `native`, given the state and the u32 size),
propagating a nonzero status verbatim.  The result records the returned
value, whether the native routine was invoked (always true), and the size the
wrapper forwarded to the native call. -/
def SHAKE128.finalize (σ : Type) (st : σ) (hashLen : Nat)
    (native : σ → Nat → Int × σ) : Except Int σ × Bool × Nat :=
  let hash_size := hashLen % u32Mod
  let r := native st hash_size
  if r.1 ≠ 0 then (Except.error r.1, true, hash_size)
  else (Except.ok r.2, true, hash_size)

/-- `SHAKE256::finalize` (sha.rs lines 1553-1562): identical body to the
SHAKE128 version. -/
def SHAKE256.finalize (σ : Type) (st : σ) (hashLen : Nat)
    (native : σ → Nat → Int × σ) : Except Int σ × Bool × Nat :=
  let hash_size := hashLen % u32Mod
  let r := native st hash_size
  if r.1 ≠ 0 then (Except.error r.1, true, hash_size)
  else (Except.ok r.2, true, hash_size)

/-- Modelled from the spec: the native incremental update routines
(`wc_ShaUpdate`, `wc_Sha256Update`, ..., `wc_CmacUpdate`), whose C
implementations are not under src/.  Spec section 3 describes the native
state as algorithm-specific internal counters and buffers fed by repeated
update calls, and section 8 requires that the final output depend only on the
concatenation of the fed bytes; so the model state is the sequence of bytes
absorbed so far, and the routine reads exactly `size` bytes from the buffer
it is handed (the C calling convention: a pointer plus an explicit byte
count) and appends them, reporting status 0. -/
def nativeUpdateModel (st : List Nat) (data : List Nat) (size : Nat) :
    Int × List Nat :=
  (0, st ++ data.take size)

/-- Iterated wrapper update: feeds a list of chunks one `update` call each,
stopping at the first error, as a caller of the wrapper would.  The body of
each step is `SHA.update`, which is also verbatim the body of every other
update method in the two source files. -/
def updateChain (native : List Nat → List Nat → Nat → Int × List Nat)
    (st : List Nat) : List (List Nat) → Except Int (List Nat)
  | [] => Except.ok st
  | d :: ds =>
    match SHA.update (List Nat) st d native with
    | Except.error e => Except.error e
    | Except.ok st2 => updateChain native st2 ds

/-- Modelled from the spec: `wc_AesCmacGenerate`, whose C implementation is
not under src/.  The spec treats the MAC mathematics as an opaque external
collaborator, so the tag is an arbitrary deterministic function `mac` of the
key bytes and data bytes the routine is given (it reads `key_size` bytes of
key and `data_size` bytes of data); generation succeeds with status 0 and
writes the tag into the output buffer. -/
def wc_AesCmacGenerate (mac : List Nat → List Nat → List Nat)
    (_dout_size : Nat) (data : List Nat) (data_size : Nat)
    (key : List Nat) (key_size : Nat) : Int × List Nat :=
  (0, mac (key.take key_size) (data.take data_size))

/-- Modelled from the spec: `wc_AesCmacVerify`, whose C implementation is not
under src/.  Per spec sections 4.1 and 6, it recomputes the MAC with the same
deterministic `mac` function and compares it with the check buffer: status 0
means the tag matched (valid), a positive status means it did not (invalid);
negative statuses are reserved for hard errors, which the comparison path
does not produce. -/
def wc_AesCmacVerify (mac : List Nat → List Nat → List Nat)
    (check : List Nat) (check_size : Nat) (data : List Nat) (data_size : Nat)
    (key : List Nat) (key_size : Nat) : Int :=
  if check.take check_size = mac (key.take key_size) (data.take data_size)
  then 0 else 1

/-- Flip bit `b` of byte `i` of a byte list. -/
def flipBit (l : List Nat) (i b : Nat) : List Nat :=
  l.set i ((l.getD i 0) ^^^ 2 ^ b)

/-- Methods callable on a CMAC handle after construction (cmac.rs):
`update` takes `&mut self`, `finalize` takes `mut self` by value. -/
inductive CmacOp
  | update
  | finalize
deriving DecidableEq

/-- Methods callable on a hash handle after construction (sha.rs): `init`,
`update` and `finalize` all take `&mut self`. -/
inductive ShaOp
  | init
  | update
  | finalize
deriving DecidableEq

/-- One CMAC method call, from the method signatures in cmac.rs: the Bool is
whether the caller still owns the handle.  `update(&mut self)` leaves the
handle owned; `finalize(mut self)` moves the handle into the call, so
afterwards the caller no longer owns it; with no handle no call can be
written at all (`none`). -/
def cmacApply : Bool → CmacOp → Option Bool
  | true, CmacOp.update => some true
  | true, CmacOp.finalize => some false
  | false, _ => none

/-- Whether a sequence of method calls on one CMAC handle is accepted by the
ownership discipline of the signatures in cmac.rs. -/
def cmacAccepts : Bool → List CmacOp → Bool
  | _, [] => true
  | owned, op :: rest =>
    match cmacApply owned op with
    | some owned2 => cmacAccepts owned2 rest
    | none => false

/-- One hash-handle method call, from the signatures in sha.rs: every method
takes `&mut self`, so the caller keeps ownership in every case. -/
def shaApply : Bool → ShaOp → Option Bool
  | true, _ => some true
  | false, _ => none

/-- Whether a sequence of method calls on one hash handle is accepted by the
ownership discipline of the signatures in sha.rs. -/
def shaAccepts : Bool → List ShaOp → Bool
  | _, [] => true
  | owned, op :: rest =>
    match shaApply owned op with
    | some owned2 => shaAccepts owned2 rest
    | none => false

/-- The per-handle lifecycle states named by spec section 4.1. -/
inductive HashState
  | uninitialized
  | initialized
  | updated
  | finalized
deriving DecidableEq

/-- The hash-handle state machine of spec section 4.1, grounded in sha.rs:
`init` calls the native init routine on `&mut self` unconditionally, so from
any state it yields a freshly initialized handle; `update` and `finalize`
move to the updated and finalized states. -/
def hashStep : HashState → ShaOp → HashState
  | _, ShaOp.init => HashState.initialized
  | _, ShaOp.update => HashState.updated
  | _, ShaOp.finalize => HashState.finalized

/-- Native calls recorded when tracing one handle through its lifetime. -/
inductive NativeCall
  | initCmac
  | cmacUpdate
  | cmacFinalNoFree
  | cmacFree
  | initSha
  | shaUpdate
  | shaFinal
  | shaFree
deriving DecidableEq

/-- Native-call trace of one CMAC handle from just after a successful
`new()` to the end of its life, given the method calls the owner makes.
From cmac.rs: `update` runs `wc_CmacUpdate`; `finalize(mut self)` runs
`wc_CmacFinalNoFree` and then, because it owns `self`, the `Drop` glue runs
`wc_CmacFree` when `finalize` returns (on its Ok and Err paths alike), and
nothing can follow; if the owner stops early instead (for example returning
on an `update` error, or never reaching `finalize`), `Drop` runs
`wc_CmacFree` at scope exit.  Rust runs `Drop` exactly once on every exit
path, which the trace embeds as the single `cmacFree` that closes it. -/
def CMAC.lifeTrace : List CmacOp → List NativeCall
  | [] => [NativeCall.cmacFree]
  | CmacOp.update :: rest => NativeCall.cmacUpdate :: CMAC.lifeTrace rest
  | CmacOp.finalize :: _ => [NativeCall.cmacFinalNoFree, NativeCall.cmacFree]

/-- Native-call trace of one SHA handle from just after a successful `new()`
to scope exit, given the method calls the owner makes; the owner may stop at
any point (early error return).  From sha.rs: all methods borrow `&mut self`,
and the `Drop` implementation runs `wc_ShaFree` exactly once at scope exit. -/
def SHA.lifeTrace : List ShaOp → List NativeCall
  | [] => [NativeCall.shaFree]
  | ShaOp.init :: rest => NativeCall.initSha :: SHA.lifeTrace rest
  | ShaOp.update :: rest => NativeCall.shaUpdate :: SHA.lifeTrace rest
  | ShaOp.finalize :: rest => NativeCall.shaFinal :: SHA.lifeTrace rest

/-! Helper lemmas shared by several claim theorems. -/

/-- On a length mismatch, the shared fixed-digest finalize body returns
`BUFFER_E` without invoking the native call, leaving buffer and state as they
were. -/
theorem finalizeFixed_badlen (digestSize : Nat) (σ : Type) (st : σ)
    (hash : List Nat) (native : σ → List Nat → Int × List Nat × σ)
    (h : hash.length ≠ digestSize) :
    finalizeFixed digestSize σ st hash native =
      (Except.error BUFFER_E, false, hash, st) := by
  simp [finalizeFixed, h]

/-- `CMAC::finalize` always invokes the native final call, whatever the
buffer length. -/
theorem cmac_finalize_always_invokes (σ : Type) (st : σ) (dout : List Nat)
    (native : σ → List Nat → Nat → Int × List Nat × σ) :
    (CMAC.finalize σ st dout native).2.1 = true := by
  unfold CMAC.finalize
  dsimp only
  split <;> rfl

/-- C1: false as stated.  CMAC is one of the enumerated fixed-digest
algorithms (AES-CMAC tag size 16), yet `CMAC::finalize` on an 8-byte output
buffer invokes the native finalize and, when the native status is 0 (which is
what `wc_CmacFinalNoFree` reports for a truncated 8-byte tag), returns `Ok`
instead of the claimed `BUFFER_E`. -/
theorem cmac_finalize_wrong_len_not_buffer_e :
    (List.replicate 8 0).length ≠ 16 ∧
    (CMAC.finalize Unit () (List.replicate 8 0)
        (fun s b _ => (0, b, s))).2.1 = true ∧
    (CMAC.finalize Unit () (List.replicate 8 0)
        (fun s b _ => (0, b, s))).1 = Except.ok () := by
  exact ⟨by decide, rfl, rfl⟩

/-- C1 (amended): each of the nine fixed-digest hash wrappers returns
`BUFFER_E` from `finalize` without invoking the native finalize call whenever
the output buffer length differs from its digest size; `CMAC::finalize`, by
contrast, performs no wrapper-side length check and invokes the native
finalize call unconditionally. -/
theorem fixed_digest_finalize_length_check (σ : Type) (st : σ)
    (hash : List Nat) (native : σ → List Nat → Int × List Nat × σ)
    (dout : List Nat) (nativeC : σ → List Nat → Nat → Int × List Nat × σ) :
    (hash.length ≠ SHA.DIGEST_SIZE →
      SHA.finalize σ st hash native = (Except.error BUFFER_E, false, hash, st)) ∧
    (hash.length ≠ SHA224.DIGEST_SIZE →
      SHA224.finalize σ st hash native = (Except.error BUFFER_E, false, hash, st)) ∧
    (hash.length ≠ SHA256.DIGEST_SIZE →
      SHA256.finalize σ st hash native = (Except.error BUFFER_E, false, hash, st)) ∧
    (hash.length ≠ SHA384.DIGEST_SIZE →
      SHA384.finalize σ st hash native = (Except.error BUFFER_E, false, hash, st)) ∧
    (hash.length ≠ SHA512.DIGEST_SIZE →
      SHA512.finalize σ st hash native = (Except.error BUFFER_E, false, hash, st)) ∧
    (hash.length ≠ SHA3_224.DIGEST_SIZE →
      SHA3_224.finalize σ st hash native = (Except.error BUFFER_E, false, hash, st)) ∧
    (hash.length ≠ SHA3_256.DIGEST_SIZE →
      SHA3_256.finalize σ st hash native = (Except.error BUFFER_E, false, hash, st)) ∧
    (hash.length ≠ SHA3_384.DIGEST_SIZE →
      SHA3_384.finalize σ st hash native = (Except.error BUFFER_E, false, hash, st)) ∧
    (hash.length ≠ SHA3_512.DIGEST_SIZE →
      SHA3_512.finalize σ st hash native = (Except.error BUFFER_E, false, hash, st)) ∧
    (CMAC.finalize σ st dout nativeC).2.1 = true := by
  refine ⟨?_, ?_, ?_, ?_, ?_, ?_, ?_, ?_, ?_,
    cmac_finalize_always_invokes σ st dout nativeC⟩ <;>
    exact fun h => finalizeFixed_badlen _ σ st hash native h

/-- Witness for the amended C1 at concrete inputs: an empty output buffer
mismatches every digest size, and an 8-byte buffer still reaches the native
CMAC finalize. -/
theorem fixed_digest_finalize_length_check_witness :
    SHA.finalize Unit () []
        (fun s b => (0, b, s)) = (Except.error BUFFER_E, false, [], ()) ∧
    SHA3_512.finalize Unit () []
        (fun s b => (0, b, s)) = (Except.error BUFFER_E, false, [], ()) ∧
    (CMAC.finalize Unit () (List.replicate 8 0)
        (fun s b _ => (0, b, s))).2.1 = true := by
  have h := fixed_digest_finalize_length_check Unit () []
    (fun s b => (0, b, s)) (List.replicate 8 0) (fun s b _ => (0, b, s))
  exact ⟨h.1 (by decide), h.2.2.2.2.2.2.2.2.1 (by decide), h.2.2.2.2.2.2.2.2.2⟩

/-- C6: false as stated for the full fixed-digest family, because the family
includes CMAC (C1 enumerates it): with an 8-byte output buffer (tag size 16),
`CMAC::finalize` invokes the native finalize, which on success overwrites the
buffer (here with the truncated tag the real `wc_CmacFinalNoFree` writes), so
the buffer is not left unchanged and no length-mismatch error is returned. -/
theorem cmac_finalize_wrong_len_writes_buffer :
    (List.replicate 8 0).length ≠ 16 ∧
    (CMAC.finalize Unit () (List.replicate 8 0)
        (fun s _ _ => (0, List.replicate 16 1, s))).2.2.1 = List.replicate 16 1 ∧
    List.replicate 16 1 ≠ List.replicate 8 (0 : Nat) ∧
    (CMAC.finalize Unit () (List.replicate 8 0)
        (fun s _ _ => (0, List.replicate 16 1, s))).1 ≠
      Except.error BUFFER_E := by
  refine ⟨by decide, rfl, by decide, ?_⟩
  intro h
  exact Except.noConfusion h

/-- C6 (amended): for the nine fixed-digest hash wrappers, `finalize` on an
output buffer of incorrect length has no effect at all beyond the returned
`BUFFER_E`: the native call is not invoked, the buffer contents are exactly
the input contents, and the native state is exactly the input state.  (CMAC,
which the spec also counts as fixed-digest, has no such guarantee: its
finalize invokes the native call for every buffer length, see the
counterexample.) -/
theorem fixed_digest_finalize_frame (σ : Type) (st : σ)
    (hash : List Nat) (native : σ → List Nat → Int × List Nat × σ) :
    (hash.length ≠ SHA.DIGEST_SIZE →
      (SHA.finalize σ st hash native).2.2.1 = hash ∧
      (SHA.finalize σ st hash native).2.2.2 = st ∧
      (SHA.finalize σ st hash native).2.1 = false ∧
      (SHA.finalize σ st hash native).1 = Except.error BUFFER_E) ∧
    (hash.length ≠ SHA224.DIGEST_SIZE →
      (SHA224.finalize σ st hash native).2.2.1 = hash ∧
      (SHA224.finalize σ st hash native).2.2.2 = st) ∧
    (hash.length ≠ SHA256.DIGEST_SIZE →
      (SHA256.finalize σ st hash native).2.2.1 = hash ∧
      (SHA256.finalize σ st hash native).2.2.2 = st) ∧
    (hash.length ≠ SHA384.DIGEST_SIZE →
      (SHA384.finalize σ st hash native).2.2.1 = hash ∧
      (SHA384.finalize σ st hash native).2.2.2 = st) ∧
    (hash.length ≠ SHA512.DIGEST_SIZE →
      (SHA512.finalize σ st hash native).2.2.1 = hash ∧
      (SHA512.finalize σ st hash native).2.2.2 = st) ∧
    (hash.length ≠ SHA3_224.DIGEST_SIZE →
      (SHA3_224.finalize σ st hash native).2.2.1 = hash ∧
      (SHA3_224.finalize σ st hash native).2.2.2 = st) ∧
    (hash.length ≠ SHA3_256.DIGEST_SIZE →
      (SHA3_256.finalize σ st hash native).2.2.1 = hash ∧
      (SHA3_256.finalize σ st hash native).2.2.2 = st) ∧
    (hash.length ≠ SHA3_384.DIGEST_SIZE →
      (SHA3_384.finalize σ st hash native).2.2.1 = hash ∧
      (SHA3_384.finalize σ st hash native).2.2.2 = st) ∧
    (hash.length ≠ SHA3_512.DIGEST_SIZE →
      (SHA3_512.finalize σ st hash native).2.2.1 = hash ∧
      (SHA3_512.finalize σ st hash native).2.2.2 = st) := by
  refine ⟨?_, ?_, ?_, ?_, ?_, ?_, ?_, ?_, ?_⟩ <;>
    intro h <;>
    simp [SHA.finalize, SHA224.finalize, SHA256.finalize, SHA384.finalize,
      SHA512.finalize, SHA3_224.finalize, SHA3_256.finalize, SHA3_384.finalize,
      SHA3_512.finalize, finalizeFixed_badlen _ σ st hash native h]

/-- Witness for the amended C6 at a concrete input: a 4-byte buffer
mismatches every digest size and is returned untouched together with the
untouched state. -/
theorem fixed_digest_finalize_frame_witness :
    (SHA.finalize (List Nat) [7] [1, 2, 3, 4]
        (fun s b => (0, [9], s))).2.2.1 = [1, 2, 3, 4] ∧
    (SHA.finalize (List Nat) [7] [1, 2, 3, 4]
        (fun s b => (0, [9], s))).2.2.2 = [7] ∧
    (SHA3_512.finalize (List Nat) [7] [1, 2, 3, 4]
        (fun s b => (0, [9], s))).2.2.1 = [1, 2, 3, 4] := by
  have h := fixed_digest_finalize_frame (List Nat) [7] [1, 2, 3, 4]
    (fun s b => (0, [9], s))
  exact ⟨(h.1 (by decide)).1, (h.1 (by decide)).2.1,
    (h.2.2.2.2.2.2.2.2 (by decide)).1⟩

/-- C2: `CMAC::verify` propagates a negative native status as `Err`, and a
non-negative status as `Ok(valid)` with `valid` true exactly when the status
is zero; in particular a positive status yields `Ok(false)`, not an error. -/
theorem cmac_verify_status (key data check : List Nat)
    (native : List Nat → Nat → List Nat → Nat → List Nat → Nat → Int)
    (rc : Int)
    (hrc : rc = native check (check.length % u32Mod) data (data.length % u32Mod)
        key (key.length % u32Mod)) :
    (rc < 0 → CMAC.verify key data check native = Except.error rc) ∧
    (0 ≤ rc → CMAC.verify key data check native = Except.ok (decide (rc = 0))) ∧
    (∀ e, CMAC.verify key data check native = Except.error e → e = rc ∧ rc < 0) := by
  subst hrc
  unfold CMAC.verify
  dsimp only
  refine ⟨fun h => by simp [h], fun h => by simp [not_lt.mpr h], fun e he => ?_⟩
  by_cases h : native check (check.length % u32Mod) data (data.length % u32Mod)
      key (key.length % u32Mod) < 0
  · rw [if_pos h] at he
    exact ⟨(Except.error.injEq _ _ ▸ he).symm, h⟩
  · rw [if_neg h] at he
    exact absurd he (by simp)

/-- Witness for C2 at concrete native statuses -5, 0 and 3. -/
theorem cmac_verify_status_witness :
    CMAC.verify [] [] [] (fun _ _ _ _ _ _ => (-5 : Int)) = Except.error (-5) ∧
    CMAC.verify [] [] [] (fun _ _ _ _ _ _ => (0 : Int)) = Except.ok true ∧
    CMAC.verify [] [] [] (fun _ _ _ _ _ _ => (3 : Int)) = Except.ok false := by
  refine ⟨(cmac_verify_status [] [] [] _ (-5) rfl).1 (by decide), ?_, ?_⟩
  · have h := (cmac_verify_status [] [] [] (fun _ _ _ _ _ _ => (0 : Int)) 0
      rfl).2.1 (by decide)
    simpa using h
  · have h := (cmac_verify_status [] [] [] (fun _ _ _ _ _ _ => (3 : Int)) 3
      rfl).2.1 (by decide)
    simpa using h

/-- C5: false as stated.  `squeeze_blocks` computes the u32 size
`dout.len() as u32`, so for a buffer of 2 ^ 32 bytes (whose length is not a
multiple of the 168-byte block size) the cast wraps to 0, the multiple-check
passes, and 0 blocks are requested with an `Ok` result instead of the claimed
`BUFFER_E`. -/
theorem squeeze_blocks_u32_wrap :
    2 ^ 32 % SHAKE128.SQUEEZE_BLOCK_SIZE ≠ 0 ∧
    (SHAKE128.squeeze_blocks Unit () (2 ^ 32) (fun s _ => (0, s))).1 =
      Except.ok () ∧
    (SHAKE128.squeeze_blocks Unit () (2 ^ 32) (fun s _ => (0, s))).2.2 = 0 ∧
    0 ≠ 2 ^ 32 / SHAKE128.SQUEEZE_BLOCK_SIZE := by
  exact ⟨by decide, rfl, rfl, by decide⟩

/-- C5 (amended): for output buffers whose length fits in u32 (below 2 ^ 32
bytes), `squeeze_blocks` of both SHAKE variants fails with `BUFFER_E` and
does not invoke the native squeeze when the length is not a multiple of
`SQUEEZE_BLOCK_SIZE`, and otherwise invokes it requesting exactly
`out.len() / SQUEEZE_BLOCK_SIZE` blocks; calls are non-consuming, so after a
successful call a further call on the resulting state again requests the same
block count.  (For longer buffers the wrapper applies the same rules to the
length reduced modulo 2 ^ 32, see the counterexample.) -/
theorem squeeze_blocks_length_rule (σ : Type) (st : σ) (doutLen : Nat)
    (native : σ → Nat → Int × σ) (h : doutLen < u32Mod) :
    (doutLen % SHAKE128.SQUEEZE_BLOCK_SIZE ≠ 0 →
      SHAKE128.squeeze_blocks σ st doutLen native =
        (Except.error BUFFER_E, false, 0)) ∧
    (doutLen % SHAKE128.SQUEEZE_BLOCK_SIZE = 0 →
      (SHAKE128.squeeze_blocks σ st doutLen native).2.1 = true ∧
      (SHAKE128.squeeze_blocks σ st doutLen native).2.2 =
        doutLen / SHAKE128.SQUEEZE_BLOCK_SIZE) ∧
    (doutLen % SHAKE256.SQUEEZE_BLOCK_SIZE ≠ 0 →
      SHAKE256.squeeze_blocks σ st doutLen native =
        (Except.error BUFFER_E, false, 0)) ∧
    (doutLen % SHAKE256.SQUEEZE_BLOCK_SIZE = 0 →
      (SHAKE256.squeeze_blocks σ st doutLen native).2.1 = true ∧
      (SHAKE256.squeeze_blocks σ st doutLen native).2.2 =
        doutLen / SHAKE256.SQUEEZE_BLOCK_SIZE) ∧
    (∀ st2 : σ,
      (SHAKE128.squeeze_blocks σ st2 doutLen native).2.2 =
        (SHAKE128.squeeze_blocks σ st doutLen native).2.2) := by
  have hmod : doutLen % u32Mod = doutLen := Nat.mod_eq_of_lt h
  refine ⟨fun hne => ?_, fun heq => ?_, fun hne => ?_, fun heq => ?_, fun st2 => ?_⟩
  · simp [SHAKE128.squeeze_blocks, hmod, hne]
  · have h1 : ¬(doutLen % u32Mod % SHAKE128.SQUEEZE_BLOCK_SIZE ≠ 0) := by
      rw [hmod]; simpa using heq
    constructor <;>
      · simp only [SHAKE128.squeeze_blocks]
        rw [if_neg h1, hmod]
        split <;> rfl
  · simp [SHAKE256.squeeze_blocks, hmod, hne]
  · have h1 : ¬(doutLen % u32Mod % SHAKE256.SQUEEZE_BLOCK_SIZE ≠ 0) := by
      rw [hmod]; simpa using heq
    constructor <;>
      · simp only [SHAKE256.squeeze_blocks]
        rw [if_neg h1, hmod]
        split <;> rfl
  · simp only [SHAKE128.squeeze_blocks]
    split
    · rfl
    · split <;> split <;> rfl

/-- Witness for the amended C5: a 169-byte buffer is rejected with
`BUFFER_E`, a 336-byte buffer requests exactly 2 blocks. -/
theorem squeeze_blocks_length_rule_witness :
    SHAKE128.squeeze_blocks Unit () 169 (fun s _ => (0, s)) =
      (Except.error BUFFER_E, false, 0) ∧
    (SHAKE128.squeeze_blocks Unit () 336 (fun s _ => (0, s))).2.2 = 2 ∧
    (SHAKE256.squeeze_blocks Unit () 272 (fun s _ => (0, s))).2.2 = 2 := by
  refine ⟨(squeeze_blocks_length_rule Unit () 169 (fun s _ => (0, s))
    (by decide)).1 (by decide), ?_, ?_⟩
  · have h := ((squeeze_blocks_length_rule Unit () 336 (fun s _ => (0, s))
      (by decide)).2.1 (by decide)).2
    simpa using h
  · have h := ((squeeze_blocks_length_rule Unit () 272 (fun s _ => (0, s))
      (by decide)).2.2.2.1 (by decide)).2
    simpa using h

/-- C10: false in one respect.  SHAKE `finalize` indeed performs no length
validation and never raises a wrapper-side `BUFFER_E`, but the length it
forwards to the native XOF final call is `hash.len() as u32`, which for a
2 ^ 32-byte buffer wraps to 0 rather than the full length. -/
theorem shake_finalize_u32_wrap :
    (SHAKE128.finalize Unit () (2 ^ 32) (fun s _ => (0, s))).2.2 = 0 ∧
    (0 : Nat) ≠ 2 ^ 32 ∧
    (SHAKE128.finalize Unit () (2 ^ 32) (fun s _ => (0, s))).1 =
      Except.ok () := by
  exact ⟨rfl, by decide, rfl⟩

/-- C10 (amended): SHAKE128 and SHAKE256 `finalize` accept an output buffer
of any length, always invoke the native XOF final call, and produce an error
only by propagating the native status verbatim (so never a wrapper-raised
length-mismatch error); the forwarded length is `hash.len() as u32`, which
equals the full buffer length whenever it is below 2 ^ 32 (zero length and
non-multiples of the block size included). -/
theorem shake_finalize_no_length_check (σ : Type) (st : σ) (hashLen : Nat)
    (native : σ → Nat → Int × σ) :
    ((SHAKE128.finalize σ st hashLen native).2.1 = true) ∧
    (∀ e, (SHAKE128.finalize σ st hashLen native).1 = Except.error e →
      e = (native st (hashLen % u32Mod)).1) ∧
    ((native st (hashLen % u32Mod)).1 = 0 →
      (SHAKE128.finalize σ st hashLen native).1 =
        Except.ok (native st (hashLen % u32Mod)).2) ∧
    ((SHAKE128.finalize σ st hashLen native).2.2 = hashLen % u32Mod) ∧
    (hashLen < u32Mod → (SHAKE128.finalize σ st hashLen native).2.2 = hashLen) ∧
    ((SHAKE256.finalize σ st hashLen native).2.1 = true) ∧
    (∀ e, (SHAKE256.finalize σ st hashLen native).1 = Except.error e →
      e = (native st (hashLen % u32Mod)).1) ∧
    ((native st (hashLen % u32Mod)).1 = 0 →
      (SHAKE256.finalize σ st hashLen native).1 =
        Except.ok (native st (hashLen % u32Mod)).2) ∧
    (hashLen < u32Mod → (SHAKE256.finalize σ st hashLen native).2.2 = hashLen) := by
  refine ⟨?_, fun e he => ?_, fun h0 => ?_, ?_, fun h => ?_,
    ?_, fun e he => ?_, fun h0 => ?_, fun h => ?_⟩
  · unfold SHAKE128.finalize; dsimp only; split <;> rfl
  · unfold SHAKE128.finalize at he; dsimp only at he
    by_cases h : (native st (hashLen % u32Mod)).1 = 0
    · rw [if_neg (by simpa using h)] at he
      exact absurd he (by simp)
    · rw [if_pos h] at he
      exact ((Except.error.injEq _ _).mp he).symm
  · simp [SHAKE128.finalize, h0]
  · unfold SHAKE128.finalize; dsimp only; split <;> rfl
  · have : hashLen % u32Mod = hashLen := Nat.mod_eq_of_lt h
    unfold SHAKE128.finalize; dsimp only; rw [this]; split <;> rfl
  · unfold SHAKE256.finalize; dsimp only; split <;> rfl
  · unfold SHAKE256.finalize at he; dsimp only at he
    by_cases h : (native st (hashLen % u32Mod)).1 = 0
    · rw [if_neg (by simpa using h)] at he
      exact absurd he (by simp)
    · rw [if_pos h] at he
      exact ((Except.error.injEq _ _).mp he).symm
  · simp [SHAKE256.finalize, h0]
  · have : hashLen % u32Mod = hashLen := Nat.mod_eq_of_lt h
    unfold SHAKE256.finalize; dsimp only; rw [this]; split <;> rfl

/-- Witness for the amended C10: a 5-byte buffer (neither zero nor a block
multiple) succeeds and forwards exactly 5; a 0-byte buffer succeeds too. -/
theorem shake_finalize_no_length_check_witness :
    (SHAKE128.finalize Unit () 5 (fun s _ => (0, s))).1 = Except.ok () ∧
    (SHAKE128.finalize Unit () 5 (fun s _ => (0, s))).2.2 = 5 ∧
    (SHAKE256.finalize Unit () 0 (fun s _ => (0, s))).1 = Except.ok () := by
  have h5 := shake_finalize_no_length_check Unit () 5 (fun s _ => (0, s))
  have h0 := shake_finalize_no_length_check Unit () 0 (fun s _ => (0, s))
  exact ⟨h5.2.2.1 rfl, h5.2.2.2.2.1 (by decide), h0.2.2.2.2.2.2.2.1 rfl⟩

/-- C7: every status-propagating wrapper operation returns `Err(rc)` with
`rc` exactly the native status if and only if that status is nonzero, and
`Ok` otherwise; for the fixed-digest finalize this holds whenever the length
check passed (the only case in which the native call is invoked); and
`CMAC::verify` is the sole exception, erroring exactly on a negative
status. -/
theorem status_propagation :
    (∀ (σ : Type) (r : Int × σ),
      (r.1 ≠ 0 → SHA.new σ r = Except.error r.1) ∧
      (r.1 = 0 → SHA.new σ r = Except.ok r.2)) ∧
    (∀ (σ : Type) (st : σ) (native : σ → Int × σ),
      ((native st).1 ≠ 0 → SHA.init σ st native = Except.error (native st).1) ∧
      ((native st).1 = 0 → SHA.init σ st native = Except.ok (native st).2)) ∧
    (∀ (σ : Type) (st : σ) (data : List Nat)
        (native : σ → List Nat → Nat → Int × σ),
      ((native st data (data.length % u32Mod)).1 ≠ 0 →
        SHA.update σ st data native =
          Except.error (native st data (data.length % u32Mod)).1) ∧
      ((native st data (data.length % u32Mod)).1 = 0 →
        SHA.update σ st data native =
          Except.ok (native st data (data.length % u32Mod)).2)) ∧
    (∀ (σ : Type) (st : σ) (data : List Nat)
        (native : σ → List Nat → Nat → Int × σ),
      ((native st data (data.length % u32Mod)).1 ≠ 0 →
        SHAKE128.absorb σ st data native =
          Except.error (native st data (data.length % u32Mod)).1) ∧
      ((native st data (data.length % u32Mod)).1 = 0 →
        SHAKE128.absorb σ st data native =
          Except.ok (native st data (data.length % u32Mod)).2)) ∧
    (∀ (σ : Type) (key : List Nat) (native : List Nat → Nat → Int × σ),
      ((native key (key.length % u32Mod)).1 ≠ 0 →
        CMAC.new σ key native =
          Except.error (native key (key.length % u32Mod)).1) ∧
      ((native key (key.length % u32Mod)).1 = 0 →
        CMAC.new σ key native =
          Except.ok (native key (key.length % u32Mod)).2)) ∧
    (∀ (σ : Type) (st : σ) (data : List Nat)
        (native : σ → List Nat → Nat → Int × σ),
      ((native st data (data.length % u32Mod)).1 ≠ 0 →
        CMAC.update σ st data native =
          Except.error (native st data (data.length % u32Mod)).1) ∧
      ((native st data (data.length % u32Mod)).1 = 0 →
        CMAC.update σ st data native =
          Except.ok (native st data (data.length % u32Mod)).2)) ∧
    (∀ (key data : List Nat) (doutLen : Nat)
        (native : Nat → List Nat → Nat → List Nat → Nat → Int × List Nat),
      ((native (doutLen % u32Mod) data (data.length % u32Mod) key
          (key.length % u32Mod)).1 ≠ 0 →
        CMAC.generate key data doutLen native =
          Except.error (native (doutLen % u32Mod) data (data.length % u32Mod)
            key (key.length % u32Mod)).1) ∧
      ((native (doutLen % u32Mod) data (data.length % u32Mod) key
          (key.length % u32Mod)).1 = 0 →
        CMAC.generate key data doutLen native =
          Except.ok (native (doutLen % u32Mod) data (data.length % u32Mod)
            key (key.length % u32Mod)).2)) ∧
    (∀ (digestSize : Nat) (σ : Type) (st : σ) (hash : List Nat)
        (native : σ → List Nat → Int × List Nat × σ),
      hash.length = digestSize →
      ((native st hash).1 ≠ 0 →
        (finalizeFixed digestSize σ st hash native).1 =
          Except.error (native st hash).1) ∧
      ((native st hash).1 = 0 →
        (finalizeFixed digestSize σ st hash native).1 = Except.ok ())) ∧
    (∀ (σ : Type) (st : σ) (dout : List Nat)
        (native : σ → List Nat → Nat → Int × List Nat × σ),
      ((native st dout (dout.length % u32Mod)).1 ≠ 0 →
        (CMAC.finalize σ st dout native).1 =
          Except.error (native st dout (dout.length % u32Mod)).1) ∧
      ((native st dout (dout.length % u32Mod)).1 = 0 →
        (CMAC.finalize σ st dout native).1 = Except.ok ())) ∧
    (∀ (key data check : List Nat)
        (native : List Nat → Nat → List Nat → Nat → List Nat → Nat → Int),
      (CMAC.verify key data check native =
          Except.error (native check (check.length % u32Mod) data
            (data.length % u32Mod) key (key.length % u32Mod)) ↔
        native check (check.length % u32Mod) data (data.length % u32Mod) key
          (key.length % u32Mod) < 0)) := by
  refine ⟨fun σ r => ⟨fun h => ?_, fun h => ?_⟩,
    fun σ st native => ⟨fun h => ?_, fun h => ?_⟩,
    fun σ st data native => ⟨fun h => ?_, fun h => ?_⟩,
    fun σ st data native => ⟨fun h => ?_, fun h => ?_⟩,
    fun σ key native => ⟨fun h => ?_, fun h => ?_⟩,
    fun σ st data native => ⟨fun h => ?_, fun h => ?_⟩,
    fun key data doutLen native => ⟨fun h => ?_, fun h => ?_⟩,
    fun digestSize σ st hash native hlen => ⟨fun h => ?_, fun h => ?_⟩,
    fun σ st dout native => ⟨fun h => ?_, fun h => ?_⟩,
    fun key data check native => ?_⟩ <;>
    first
    | simp [SHA.new, SHA.init, SHA.update, SHAKE128.absorb, CMAC.new,
        CMAC.update, CMAC.generate, CMAC.finalize, finalizeFixed, hlen, h]
    | simp [SHA.new, SHA.init, SHA.update, SHAKE128.absorb, CMAC.new,
        CMAC.update, CMAC.generate, CMAC.finalize, h]
    | · constructor
        · intro he
          by_cases hneg : native check (check.length % u32Mod) data
              (data.length % u32Mod) key (key.length % u32Mod) < 0
          · exact hneg
          · rw [CMAC.verify, if_neg hneg] at he
            exact absurd he (by simp)
        · intro hneg
          rw [CMAC.verify, if_pos hneg]

/-- Witness for C7 at concrete statuses: status 7 is propagated verbatim as
`Err(7)`, status 0 yields `Ok`. -/
theorem status_propagation_witness :
    SHA.update Unit () [1, 2] (fun _ _ _ => (7, ())) = Except.error 7 ∧
    SHA.new Unit (0, ()) = Except.ok () ∧
    (finalizeFixed 2 Unit () [1, 2] (fun s b => (9, b, s))).1 =
      Except.error 9 ∧
    CMAC.verify [] [] [] (fun _ _ _ _ _ _ => (-3 : Int)) =
      Except.error (-3) := by
  refine ⟨(status_propagation.2.2.1 Unit () [1, 2]
      (fun _ _ _ => (7, ()))).1 (by decide),
    (status_propagation.1 Unit (0, ())).2 (by decide), ?_, ?_⟩
  · exact (status_propagation.2.2.2.2.2.2.2.1 2 Unit () [1, 2]
      (fun s b => (9, b, s)) (by decide)).1 (by decide)
  · exact (status_propagation.2.2.2.2.2.2.2.2.2 [] [] []
      (fun _ _ _ _ _ _ => (-3 : Int))).mpr (by decide)

/-- Once the handle is gone, no further CMAC method call is accepted. -/
theorem cmacAccepts_false (post : List CmacOp)
    (h : cmacAccepts false post = true) : post = [] := by
  cases post with
  | nil => rfl
  | cons op rest => simp [cmacAccepts, cmacApply] at h

/-- C8: in any method-call sequence on a CMAC handle that the ownership
discipline of cmac.rs accepts, nothing follows `finalize` (it takes `self` by
value, so `Finalized` is terminal); on a hash handle every method borrows
`&mut self`, so every call sequence is accepted — in particular calls after
`finalize` — and per the spec state machine `init` sends every state back to
`Initialized`. -/
theorem cmac_finalize_terminal :
    (∀ (pre post : List CmacOp),
      cmacAccepts true (pre ++ CmacOp.finalize :: post) = true → post = []) ∧
    (∀ ops : List ShaOp, shaAccepts true ops = true) ∧
    (∀ s : HashState, hashStep s ShaOp.init = HashState.initialized) := by
  refine ⟨?_, ?_, ?_⟩
  · intro pre
    induction pre with
    | nil =>
      intro post h
      simp only [List.nil_append, cmacAccepts, cmacApply] at h
      exact cmacAccepts_false post h
    | cons op pre2 ih =>
      intro post h
      cases op with
      | update =>
        simp only [List.cons_append, cmacAccepts, cmacApply] at h
        exact ih post h
      | finalize =>
        simp only [List.cons_append, cmacAccepts, cmacApply] at h
        have := cmacAccepts_false _ h
        exact absurd this (by simp)
  · intro ops
    induction ops with
    | nil => rfl
    | cons op rest ih => simpa [shaAccepts, shaApply] using ih
  · intro s
    cases s <;> rfl

/-- Witness for C8: the accepted sequence update-then-finalize on a CMAC
handle has nothing after finalize; the hash-handle sequence
finalize-init-update is accepted; init from the finalized state yields the
initialized state. -/
theorem cmac_finalize_terminal_witness :
    ([] : List CmacOp) = [] ∧
    shaAccepts true [ShaOp.finalize, ShaOp.init, ShaOp.update] = true ∧
    hashStep HashState.finalized ShaOp.init = HashState.initialized := by
  exact ⟨cmac_finalize_terminal.1 [CmacOp.update] [] (by decide),
    cmac_finalize_terminal.2.1 _, cmac_finalize_terminal.2.2 _⟩

/-- The CMAC lifetime trace frees the native state exactly once, whatever the
owner does. -/
theorem cmac_lifeTrace_free_once (ops : List CmacOp) :
    (CMAC.lifeTrace ops).count NativeCall.cmacFree = 1 := by
  induction ops with
  | nil => rfl
  | cons op rest ih =>
    cases op with
    | update => simpa [CMAC.lifeTrace, List.count_cons] using ih
    | finalize => rfl

/-- The SHA lifetime trace frees the native state exactly once, whatever the
owner does. -/
theorem sha_lifeTrace_free_once (ops : List ShaOp) :
    (SHA.lifeTrace ops).count NativeCall.shaFree = 1 := by
  induction ops with
  | nil => rfl
  | cons op rest ih =>
    cases op <;> simpa [SHA.lifeTrace, List.count_cons] using ih

/-- C9: over the whole lifetime of a handle — whatever method calls its owner
makes, including stopping early on an error and never reaching finalize — the
native free routine appears exactly once in the native-call trace (so it is
never omitted and never double-invoked), for the consuming CMAC lifecycle and
the non-consuming SHA lifecycle alike. -/
theorem native_free_exactly_once (ops : List CmacOp) (ops2 : List ShaOp) :
    (NativeCall.initCmac :: CMAC.lifeTrace ops).count NativeCall.cmacFree = 1 ∧
    (SHA.lifeTrace ops2).count NativeCall.shaFree = 1 := by
  constructor
  · simpa [List.count_cons] using cmac_lifeTrace_free_once ops
  · exact sha_lifeTrace_free_once ops2

/-- Flipping any bit of any byte of a list changes the list. -/
theorem flipBit_ne (l : List Nat) (i b : Nat) (h : i < l.length) :
    flipBit l i b ≠ l := by
  intro heq
  have h2 : (l.set i (l.getD i 0 ^^^ 2 ^ b))[i]? = some (l.getD i 0 ^^^ 2 ^ b) :=
    List.getElem?_set_eq h
  rw [flipBit] at heq
  rw [heq] at h2
  have hget : l[i]? = some l[i] := List.getElem?_eq_getElem h
  rw [hget] at h2
  have h3 : l[i] = l.getD i 0 ^^^ 2 ^ b := Option.some.inj h2
  have hgd : l.getD i 0 = l[i] := by
    rw [List.getD_eq_getElem?_getD, hget]
    rfl
  rw [hgd] at h3
  have h4 : l[i] ^^^ l[i] = l[i] ^^^ (l[i] ^^^ 2 ^ b) := by
    rw [← h3]
  rw [Nat.xor_self, ← Nat.xor_assoc, Nat.xor_self, Nat.zero_xor] at h4
  exact (pow_pos (by norm_num : (0 : Nat) < 2) b).ne' h4.symm

/-- C3: with the spec-modelled native CMAC routines, `generate` then `verify`
on the same key, message and tag yields `Ok(true)`, and `verify` on a tag
with any single bit flipped yields `Ok(false)` — an invalid result, not an
error.  The length hypotheses say the buffers fit a u32 byte count, so the
sizes the wrapper computes are the exact lengths. -/
theorem cmac_generate_verify_roundtrip (mac : List Nat → List Nat → List Nat)
    (key data : List Nat)
    (hk : key.length < u32Mod) (hd : data.length < u32Mod)
    (ht : (mac key data).length < u32Mod) :
    CMAC.generate key data 16 (wc_AesCmacGenerate mac) =
      Except.ok (mac key data) ∧
    CMAC.verify key data (mac key data) (wc_AesCmacVerify mac) =
      Except.ok true ∧
    (∀ i b, i < (mac key data).length → b < 8 →
      CMAC.verify key data (flipBit (mac key data) i b) (wc_AesCmacVerify mac) =
        Except.ok false) := by
  have hkm : key.length % u32Mod = key.length := Nat.mod_eq_of_lt hk
  have hdm : data.length % u32Mod = data.length := Nat.mod_eq_of_lt hd
  have htm : (mac key data).length % u32Mod = (mac key data).length :=
    Nat.mod_eq_of_lt ht
  refine ⟨?_, ?_, fun i b hi _hb => ?_⟩
  · simp [CMAC.generate, wc_AesCmacGenerate, hkm, hdm, List.take_length]
  · simp [CMAC.verify, wc_AesCmacVerify, hkm, hdm, htm, List.take_length]
  · have hlen : (flipBit (mac key data) i b).length = (mac key data).length := by
      simp [flipBit]
    have hne := flipBit_ne (mac key data) i b hi
    have htake : List.take (mac key data).length (flipBit (mac key data) i b) =
        flipBit (mac key data) i b := by
      rw [← hlen]
      exact List.take_length _
    simp [CMAC.verify, wc_AesCmacVerify, hkm, hdm, hlen, htm, List.take_length,
      htake, hne]

/-- Witness for C3 with the constant two-byte tag function at empty key and
message, flipping bit 0 of byte 0. -/
theorem cmac_generate_verify_roundtrip_witness :
    CMAC.generate [] [] 16 (wc_AesCmacGenerate (fun _ _ => [2, 3])) =
      Except.ok [2, 3] ∧
    CMAC.verify [] [] [2, 3] (wc_AesCmacVerify (fun _ _ => [2, 3])) =
      Except.ok true ∧
    CMAC.verify [] [] (flipBit [2, 3] 0 0) (wc_AesCmacVerify (fun _ _ => [2, 3])) =
      Except.ok false := by
  have h := cmac_generate_verify_roundtrip (fun _ _ => [2, 3]) [] []
    (by decide) (by decide) (by decide)
  exact ⟨h.1, h.2.1, h.2.2 0 0 (by decide) (by decide)⟩

/-- One wrapper update with the spec-modelled native update appends the data
when its length fits a u32 byte count. -/
theorem sha_update_model (st data : List Nat) (h : data.length < u32Mod) :
    SHA.update (List Nat) st data nativeUpdateModel = Except.ok (st ++ data) := by
  simp [SHA.update, nativeUpdateModel, Nat.mod_eq_of_lt h, List.take_length]

/-- Chained wrapper updates with the spec-modelled native update append the
concatenation of the chunks when the total length fits a u32 byte count. -/
theorem updateChain_model (chunks : List (List Nat)) : ∀ st : List Nat,
    chunks.join.length < u32Mod →
    updateChain nativeUpdateModel st chunks = Except.ok (st ++ chunks.join) := by
  induction chunks with
  | nil =>
    intro st _h
    simp [updateChain]
  | cons d ds ih =>
    intro st h
    have hj : (List.join (d :: ds)).length = d.length + ds.join.length := by
      simp
    rw [hj] at h
    have hd2 : d.length < u32Mod := by omega
    have hds : ds.join.length < u32Mod := by omega
    simp only [updateChain, sha_update_model st d hd2]
    rw [ih (st ++ d) hds]
    simp [List.append_assoc]

/-- C4: false as stated for arbitrary inputs.  The wrapper passes
`data.len() as u32` to the native update, so a single `update` call with a
2 ^ 32-byte input hands the native routine a byte count of 0 and absorbs
nothing, while the same bytes split into two 2 ^ 31-byte calls are absorbed
in full: the two native states differ, hence so does the final output. -/
theorem update_u32_truncation :
    updateChain nativeUpdateModel []
        [List.replicate (2 ^ 31) 0, List.replicate (2 ^ 31) 0] =
      Except.ok (List.replicate (2 ^ 32) 0) ∧
    SHA.update (List Nat) []
        (List.join [List.replicate (2 ^ 31) 0, List.replicate (2 ^ 31) 0])
        nativeUpdateModel = Except.ok [] ∧
    List.replicate (2 ^ 32) (0 : Nat) ≠ [] := by
  have key : ∀ a : List Nat, a.length = 2 ^ 31 →
      updateChain nativeUpdateModel [] [a, a] = Except.ok (a ++ a) ∧
      SHA.update (List Nat) [] (List.join [a, a]) nativeUpdateModel =
        Except.ok [] := by
    intro a ha
    have hlt : a.length < u32Mod := by rw [ha]; norm_num [u32Mod]
    constructor
    · have s1 := sha_update_model [] a hlt
      have s2 := sha_update_model a a hlt
      simp only [updateChain, List.nil_append, s1, s2]
    · have hm : (a.length + a.length) % u32Mod = 0 := by
        rw [ha]
        norm_num [u32Mod]
      simp [SHA.update, nativeUpdateModel, hm]
  have hinst := key (List.replicate (2 ^ 31) 0) (List.length_replicate _ _)
  refine ⟨?_, hinst.2, ?_⟩
  · rw [hinst.1, ← List.replicate_add]
    norm_num
  · intro hcontra
    have hlen := congrArg List.length hcontra
    rw [List.length_replicate, List.length_nil] at hlen
    exact absurd hlen (by norm_num)

/-- C4 (amended): whenever the total input length fits a u32 byte count
(below 2 ^ 32 bytes, so every length cast is lossless), feeding the bytes in
one `update` call and feeding them as any partition into consecutive `update`
calls leave the native incremental state identical — namely the concatenation
of all bytes fed — so the subsequent finalize produces identical output.
(For larger single calls the u32 cast truncates the byte count handed to the
native routine, see the counterexample.) -/
theorem update_incremental_eq_oneshot (st : List Nat)
    (chunks : List (List Nat)) (h : chunks.join.length < u32Mod) :
    updateChain nativeUpdateModel st chunks =
      SHA.update (List Nat) st chunks.join nativeUpdateModel ∧
    updateChain nativeUpdateModel st chunks = Except.ok (st ++ chunks.join) := by
  have hchain := updateChain_model chunks st h
  have hone := sha_update_model st chunks.join h
  exact ⟨hchain.trans hone.symm, hchain⟩

/-- Witness for the amended C4: the partition [[1], [2, 3]] and the one-shot
[1, 2, 3] agree. -/
theorem update_incremental_eq_oneshot_witness :
    updateChain nativeUpdateModel [] [[1], [2, 3]] = Except.ok [1, 2, 3] ∧
    SHA.update (List Nat) [] [1, 2, 3] nativeUpdateModel =
      Except.ok [1, 2, 3] := by
  have h := update_incremental_eq_oneshot [] [[1], [2, 3]] (by decide)
  refine ⟨by simpa using h.2, ?_⟩
  have h2 : SHA.update (List Nat) []
      (List.join [[1], [2, 3]]) nativeUpdateModel = Except.ok [1, 2, 3] := by
    rw [← h.1]
    simpa using h.2
  simpa using h2
